import Mathlib

/-!
Shallow embedding of the single-file Spotify playlist downloader web
application.  Pure helpers are translated directly from the source; the
stateful parts (the per-session token store, the url query parameters and
the external services) are modelled by explicit state passing together with
oracle functions that describe the behaviour of the external collaborators
(identity provider, metadata API, search tool, extraction tool).
-/

namespace Spotipy

/-- The character class removed by limpar_nome (the regex of
filesystem-reserved characters). -/
def caracteresInvalidos : List Char :=
  ['\\', '/', '*', '?', ':', Char.ofNat 34, '<', '>', '|']

/-- limpar_nome: removes every filesystem-reserved character from a display
string (re.sub with an empty replacement, i.e. plain removal). -/
def limpar_nome (nome : String) : String :=
  String.mk (nome.data.filter (fun c => !(caracteresInvalidos.contains c)))

/-- Helper for splitChar: cur holds the reversed characters of the segment
being read. -/
def splitCharAux (sep : Char) : List Char → List Char → List String
  | [], cur => [String.mk cur.reverse]
  | c :: cs, cur =>
    if c = sep then String.mk cur.reverse :: splitCharAux sep cs []
    else splitCharAux sep cs (c :: cur)

/-- The Python one-character string split: the list of segments between
occurrences of the separator.  The empty string yields a single empty
segment, and a string without the separator yields itself as the single
segment. -/
def splitChar (sep : Char) (s : String) : List String :=
  splitCharAux sep s.data []

/-- get_playlist_id: splits the url on the slash, takes the last segment,
splits that segment on the question mark and takes the first part.  For a
string argument the Python split calls cannot raise, so the handler for
IndexError and AttributeError that returns None is unreachable and the
function always produces a value. -/
def get_playlist_id (url : String) : Option String :=
  some (((splitChar '?' ((splitChar '/' url).getLastD "")).headD ""))

/-! ## Session authentication model

The token dictionary stored in st.session_state, the code entry of
st.query_params, and the three external identity-provider operations used
by get_spotify_client: the code-for-token exchange, the expiry check and
the refresh call.  An oracle returning none models the corresponding
library call raising an exception. -/

structure TokenInfo where
  access_token : String
  refresh_token : String
  expires_at : Nat
deriving DecidableEq, Repr

structure AuthEnv where
  exchange : String → Option TokenInfo
  is_expired : TokenInfo → Bool
  refresh : String → Option TokenInfo

/-- The mutable state the script sees: the token entry of st.session_state
and the code entry of st.query_params. -/
structure AppState where
  token_info : Option TokenInfo
  code_param : Option String
deriving DecidableEq, Repr

/-- Observable events of one run of the auth flow, in order. -/
inductive AuthEvent where
  | errorShown : String → AuthEvent
  | exchangeCall : String → AuthEvent
  | refreshCall : String → AuthEvent
  | metadataRequest : AuthEvent
deriving DecidableEq, Repr

/-- Result of get_spotify_client: a client carrying the access token, an
exception escaping the function, or an internal st.stop. -/
inductive ClientResult where
  | ok : String → ClientResult
  | raised : ClientResult
  | stopped : ClientResult
deriving DecidableEq, Repr

structure ClientStep where
  result : ClientResult
  state : AppState
  events : List AuthEvent
deriving DecidableEq, Repr

/-- Step 4 and 5 of get_spotify_client: read the stored token, refresh it
when the expiry check says it has expired, and build the client.  When the
refresh call raises, the exception escapes and the stored token entry is
left untouched. -/
def tokenPhase (env : AuthEnv) (s : AppState) (ti : TokenInfo)
    (evs : List AuthEvent) : ClientStep :=
  if env.is_expired ti then
    match env.refresh ti.refresh_token with
    | none => ⟨ClientResult.raised, s, evs ++ [AuthEvent.refreshCall ti.refresh_token]⟩
    | some ti2 =>
      ⟨ClientResult.ok ti2.access_token,
       { s with token_info := some ti2 },
       evs ++ [AuthEvent.refreshCall ti.refresh_token]⟩
  else
    ⟨ClientResult.ok ti.access_token, s, evs⟩

/-- get_spotify_client: when no token is stored, read the code query
parameter (missing code: error and stop), exchange a non-empty code for a
token, store it and clear the query parameters; then hand out a client for
the stored token, refreshing it first when expired. -/
def get_spotify_client (env : AuthEnv) (s : AppState) : ClientStep :=
  match s.token_info with
  | none =>
    match s.code_param with
    | none =>
      ⟨ClientResult.stopped, s, [AuthEvent.errorShown "sem codigo de autorizacao na url"]⟩
    | some code =>
      if code = "" then
        ⟨ClientResult.stopped, s, [AuthEvent.errorShown "fluxo interrompido, nenhum codigo"]⟩
      else
        match env.exchange code with
        | none => ⟨ClientResult.raised, s, [AuthEvent.exchangeCall code]⟩
        | some ti =>
          tokenPhase env { token_info := some ti, code_param := none } ti
            [AuthEvent.exchangeCall code]
  | some ti => tokenPhase env s ti []

/-- Outcome of one top-level run of the script, up to the point where the
main page is shown. -/
inductive RunOutcome where
  | routedToLogin : RunOutcome
  | authErrorStop : RunOutcome
  | ready : String → RunOutcome
deriving DecidableEq, Repr

/-- The module-level flow: when the query parameters hold no code entry the
login page is shown and the run stops; otherwise get_spotify_client runs,
an escaping exception is reported and the run stops, and on success the
main page is reached with an authenticated client. -/
def appRun (env : AuthEnv) (s : AppState) : RunOutcome × AppState × List AuthEvent :=
  match s.code_param with
  | none => (RunOutcome.routedToLogin, s, [])
  | some _ =>
    let st := get_spotify_client env s
    match st.result with
    | ClientResult.ok tok => (RunOutcome.ready tok, st.state, st.events)
    | ClientResult.raised =>
      (RunOutcome.authErrorStop, st.state,
       st.events ++ [AuthEvent.errorShown "erro durante a autenticacao"])
    | ClientResult.stopped => (RunOutcome.authErrorStop, st.state, st.events)

/-- One run in which the user also submits a playlist and presses the start
button: the metadata request happens only after a client was obtained, and
never on a run that stopped earlier. -/
def appRunWithDownload (env : AuthEnv) (s : AppState) (startPressed : Bool) :
    RunOutcome × AppState × List AuthEvent :=
  let r := appRun env s
  match r.1 with
  | RunOutcome.ready _ =>
    if startPressed then (r.1, r.2.1, r.2.2 ++ [AuthEvent.metadataRequest]) else r
  | _ => r

/-- Recognizer for refresh events. -/
def isRefreshCall : AuthEvent → Bool
  | AuthEvent.refreshCall _ => true
  | _ => false

/-- Recognizer for metadata-request events. -/
def isMetadataRequest : AuthEvent → Bool
  | AuthEvent.metadataRequest => true
  | _ => false

/-! ## Track listing

A playlist item as returned by the metadata API: the track entry may be
null (a removed or unavailable entry), the name entry may be missing or
empty, and the artists entry is the list of artist names.  The provider
response for one playlist is modelled as the sequence of pages it serves:
the next link of a page is non-null exactly when a further page follows,
and fetching the next page yields the next element of the sequence. -/

structure Track where
  name : Option String
  artists : List String
deriving DecidableEq, Repr

structure Item where
  track : Option Track
deriving DecidableEq, Repr

/-- The while loop of get_todas_as_musicas: the first component is the list
of pages still to be served by the next link, the second the accumulated
items.  While a next page exists it is fetched and its items are appended. -/
def fetchLoop {α : Type} : List (List α) → List α → List α
  | [], musicas => musicas
  | p :: rest, musicas => fetchLoop rest (musicas ++ p)

/-- get_todas_as_musicas: fetch the first page, then follow next links,
appending the items of every page in provider order.  The argument none
models the provider raising, in which case the handler reports an error and
returns the empty list. -/
def get_todas_as_musicas {α : Type} : Option (List (List α)) → List α
  | none => []
  | some [] => []
  | some (p0 :: rest) => fetchLoop rest p0

/-- The authenticated client value passed to the listing function, carrying
the access token it was built from. -/
structure SpotifyClient where
  auth : String
deriving DecidableEq, Repr

/-- One call of the memoized listing function under the st.cache_data
decorator.  Streamlit excludes parameters whose name starts with an
underscore from the memoization key, and the client parameter of
get_todas_as_musicas is written with a leading underscore, so the key is
the playlist id alone; the client takes part only in the fetch that
populates a missing entry.  The cache is an association list from playlist
id to the stored result. -/
def cached_get_todas (fetch : SpotifyClient → String → Option (List (List Item)))
    (cache : List (String × List Item)) (sp : SpotifyClient) (playlist_id : String) :
    List Item × List (String × List Item) :=
  match cache.lookup playlist_id with
  | some v => (v, cache)
  | none =>
    let v := get_todas_as_musicas (fetch sp playlist_id)
    (v, (playlist_id, v) :: cache)

/-! ## Track acquisition -/

/-- Behaviour of the VideosSearch call: the link of the first result, an
empty or missing result list, or a raised exception. -/
inductive SearchOutcome where
  | found : String → SearchOutcome
  | noResult : SearchOutcome
  | raised : SearchOutcome
deriving DecidableEq, Repr

/-- Behaviour of the yt_dlp download call. -/
inductive ExtractOutcome where
  | ok : ExtractOutcome
  | raised : ExtractOutcome
deriving DecidableEq, Repr

/-- A message posted to the status placeholder. -/
inductive Status where
  | info : String → Status
  | warn : String → Status
  | err : String → Status
  | success : String → Status
deriving DecidableEq, Repr

/-- baixar_musica: builds the sanitized base filename and the destination
path outside the handler, then searches and downloads inside it.  Any
failure yields none together with a warning or error message; success
yields the mp3 path. -/
def baixar_musica (search : SearchOutcome) (extract : ExtractOutcome)
    (nome_musica artista pasta_destino : String) : Option String × List Status :=
  let nome_arquivo_base := limpar_nome artista ++ " - " ++ limpar_nome nome_musica
  let caminho_completo := pasta_destino ++ "/" ++ nome_arquivo_base
  let busca := artista ++ " - " ++ nome_musica ++ " official audio"
  match search with
  | SearchOutcome.raised =>
    (none, [Status.info ("Buscando: " ++ busca),
            Status.err ("Erro ao baixar " ++ nome_arquivo_base)])
  | SearchOutcome.noResult =>
    (none, [Status.info ("Buscando: " ++ busca),
            Status.warn ("Nao encontrado no YouTube: " ++ busca)])
  | SearchOutcome.found _ =>
    match extract with
    | ExtractOutcome.raised =>
      (none, [Status.info ("Buscando: " ++ busca),
              Status.info ("Baixando: " ++ nome_arquivo_base),
              Status.err ("Erro ao baixar " ++ nome_arquivo_base)])
    | ExtractOutcome.ok =>
      (some (caminho_completo ++ ".mp3"),
       [Status.info ("Buscando: " ++ busca),
        Status.info ("Baixando: " ++ nome_arquivo_base),
        Status.success ("Sucesso: " ++ nome_arquivo_base)])

/-- A failure message (warning or error) is present in a status list. -/
def temFalha (l : List Status) : Bool :=
  l.any fun s =>
    match s with
    | Status.warn _ => true
    | Status.err _ => true
    | _ => false

/-! ## Download loop and archive assembly -/

/-- What the loop body does with one playlist item.  The track entry and
its name entry are read with dictionary get calls and tested for
truthiness, so a null track, a missing name or an empty name leads to the
skip branch with a warning; a valid track has its first artist read with a
plain index, which raises when the artists list is empty. -/
inductive ItemStep where
  | tentar : String → String → ItemStep
  | pular : ItemStep
  | quebrar : ItemStep
deriving DecidableEq, Repr

/-- Classification of one item by the guard of the loop body. -/
def classifyItem (it : Item) : ItemStep :=
  match it.track with
  | none => ItemStep.pular
  | some t =>
    match t.name with
    | none => ItemStep.pular
    | some nm =>
      if nm = "" then ItemStep.pular
      else
        match t.artists with
        | [] => ItemStep.quebrar
        | a :: _ => ItemStep.tentar nm a

/-- The observable outcome of the download loop: the name and artist pairs
passed to baixar_musica, the number of skipped-item warnings, the sequence
of progress-bar updates as pairs of numerator i plus one and denominator
total, and the accumulated list of successfully downloaded paths. -/
structure LoopResult where
  attempts : List (String × String)
  warnings : Nat
  progressos : List (Nat × Nat)
  baixados : List String
deriving DecidableEq, Repr

/-- The for loop over the capped item list.  The oracle env gives the
behaviour of the search and extraction services for the item at each
position.  A quebrar item raises an uncaught IndexError, modelled by none;
every other item advances the progress bar by one step. -/
def downloadLoop (env : Nat → SearchOutcome × ExtractOutcome) (temp_dir : String)
    (total : Nat) : Nat → List Item → Option LoopResult
  | _, [] => some ⟨[], 0, [], []⟩
  | i, it :: rest =>
    match classifyItem it with
    | ItemStep.quebrar => none
    | ItemStep.pular =>
      match downloadLoop env temp_dir total (i + 1) rest with
      | none => none
      | some r => some ⟨r.attempts, r.warnings + 1, (i + 1, total) :: r.progressos, r.baixados⟩
    | ItemStep.tentar nm a =>
      let res := (baixar_musica (env i).1 (env i).2 nm a temp_dir).1
      match downloadLoop env temp_dir total (i + 1) rest with
      | none => none
      | some r =>
        some ⟨(nm, a) :: r.attempts, r.warnings, (i + 1, total) :: r.progressos,
              match res with
              | some p => p :: r.baixados
              | none => r.baixados⟩

/-- os.path.basename for slash-separated paths: the part of the string
after the last slash. -/
def basename (p : String) : String :=
  String.mk ((p.data.reverse.takeWhile (fun c => c != '/')).reverse)

/-- Outcome of one press of the start button after the playlist items were
fetched: an empty fetched list does nothing, a loop in which every attempt
failed reports the terminal nothing-to-archive error and produces no
archive, and otherwise a zip archive is written whose entries are the base
filenames of the downloaded files, in download order. -/
inductive PipelineResult where
  | vazio : PipelineResult
  | semArquivos : LoopResult → PipelineResult
  | arquivo : LoopResult → List String → PipelineResult
  | quebrou : PipelineResult
deriving DecidableEq, Repr

/-- The module-level download block: cap the fetched list when the limit is
positive, run the loop over the capped list, and assemble the archive
exactly when at least one download succeeded. -/
def runPipeline (env : Nat → SearchOutcome × ExtractOutcome) (temp_dir : String)
    (todas : List Item) (limite : Nat) : PipelineResult :=
  if todas.isEmpty then PipelineResult.vazio
  else
    let musicas_a_processar := if 0 < limite then todas.take limite else todas
    let total := musicas_a_processar.length
    if total = 0 then PipelineResult.vazio
    else
      match downloadLoop env temp_dir total 0 musicas_a_processar with
      | none => PipelineResult.quebrou
      | some r =>
        if r.baixados.isEmpty then PipelineResult.semArquivos r
        else PipelineResult.arquivo r (r.baixados.map basename)

/-- The loop outcome recorded in a pipeline result, when the loop ran. -/
def pipelineLoopResult : PipelineResult → Option LoopResult
  | PipelineResult.semArquivos r => some r
  | PipelineResult.arquivo r _ => some r
  | _ => none

/-- An item is a valid track for the loop guard. -/
def valido (it : Item) : Bool :=
  match classifyItem it with
  | ItemStep.tentar _ _ => true
  | _ => false

/-- The name and artist pair the loop would pass to baixar_musica. -/
def attemptInfo (it : Item) : Option (String × String) :=
  match classifyItem it with
  | ItemStep.tentar nm a => some (nm, a)
  | _ => none

/-- No item of the list raises in the loop body. -/
def semQuebra (itens : List Item) : Bool :=
  itens.all fun it =>
    match classifyItem it with
    | ItemStep.quebrar => false
    | _ => true

/-- The download result of the item at absolute position j. -/
def resultadoItem (env : Nat → SearchOutcome × ExtractOutcome) (temp_dir : String)
    (j : Nat) (it : Item) : Option String :=
  match classifyItem it with
  | ItemStep.tentar nm a => (baixar_musica (env j).1 (env j).2 nm a temp_dir).1
  | _ => none

/-- The successful download paths the loop accumulates, starting at
absolute position j. -/
def baixadosEsperados (env : Nat → SearchOutcome × ExtractOutcome) (temp_dir : String) :
    Nat → List Item → List String
  | _, [] => []
  | j, it :: rest =>
    match resultadoItem env temp_dir j it with
    | some p => p :: baixadosEsperados env temp_dir (j + 1) rest
    | none => baixadosEsperados env temp_dir (j + 1) rest

/-- The path baixar_musica reports on a successful download. -/
def caminhoEsperado (nome_musica artista pasta_destino : String) : String :=
  (pasta_destino ++ "/" ++ (limpar_nome artista ++ " - " ++ limpar_nome nome_musica)) ++ ".mp3"

/-- The loop outcome downloadLoop produces on a list free of raising items,
starting the progress count at one: computed attempts, warnings, progress
pairs and downloaded paths. -/
def loopEsperado (env : Nat → SearchOutcome × ExtractOutcome) (temp_dir : String)
    (mus : List Item) : LoopResult :=
  ⟨mus.filterMap attemptInfo,
   mus.countP (fun it => !(valido it)),
   (List.range' 1 mus.length).map (fun k => (k, mus.length)),
   baixadosEsperados env temp_dir 0 mus⟩

/-! ## Concrete scenario data used by the closed instances -/

/-- A provider on which every external call raises and every token reads as
expired: the refresh-failure scenario. -/
def envC1 : AuthEnv where
  exchange := fun _ => none
  is_expired := fun _ => true
  refresh := fun _ => none

/-- A stored credential for the refresh-failure scenario. -/
def tokC1 : TokenInfo := ⟨"tokA", "refA", 0⟩

/-- A session holding tokC1, with a code entry still in the query
parameters. -/
def stC1 : AppState := ⟨some tokC1, some "cod"⟩

/-- A provider for the routing scenario; never consulted by the routing
check. -/
def envC3 : AuthEnv where
  exchange := fun _ => none
  is_expired := fun _ => false
  refresh := fun _ => none

/-- An authenticated session whose query parameters hold no code entry, the
state of any rerun after a successful login (the script clears the query
parameters right after the exchange). -/
def stC3 : AppState := ⟨some ⟨"tokB", "refB", 99⟩, none⟩

/-- A playlist item returned to the first credential in the caching
scenario. -/
def itemA : Item := ⟨some ⟨some "m1", ["a1"]⟩⟩

/-- A playlist item returned to the second credential in the caching
scenario. -/
def itemB : Item := ⟨some ⟨some "m2", ["a2"]⟩⟩

/-- A provider whose answer depends on the credential: the same playlist id
lists itemA under credA and itemB under any other credential. -/
def fetchC2 : SpotifyClient → String → Option (List (List Item)) :=
  fun sp _ => if sp.auth = "credA" then some [[itemA]] else some [[itemB]]

/-- External services on which every search finds a video and every
download succeeds. -/
def envOk : Nat → SearchOutcome × ExtractOutcome :=
  fun _ => (SearchOutcome.found "u", ExtractOutcome.ok)

/-- External services on which every search comes back empty. -/
def envFalha : Nat → SearchOutcome × ExtractOutcome :=
  fun _ => (SearchOutcome.noResult, ExtractOutcome.ok)

/-- External services on which the search for the third track comes back
empty and every other acquisition succeeds. -/
def envDoisDeTres : Nat → SearchOutcome × ExtractOutcome :=
  fun j => if j = 2 then (SearchOutcome.noResult, ExtractOutcome.ok)
           else (SearchOutcome.found "u", ExtractOutcome.ok)

/-- A valid playlist item with a distinct name and artist per index. -/
def trilha (n : Nat) : Item := ⟨some ⟨some ("m" ++ toString n), ["art" ++ toString n]⟩⟩

/-- A removed or unavailable playlist entry: its track field is null. -/
def nulo : Item := ⟨none⟩

/-! ## Helper lemmas -/

lemma fetchLoop_eq_append_join {α : Type} (rest : List (List α)) :
    ∀ musicas : List α, fetchLoop rest musicas = musicas ++ rest.join := by
  induction rest with
  | nil => intro musicas; simp [fetchLoop]
  | cons p rest ih =>
    intro musicas
    simp [fetchLoop, ih, List.append_assoc]

lemma semQuebra_cons {it : Item} {rest : List Item} (h : semQuebra (it :: rest) = true) :
    classifyItem it ≠ ItemStep.quebrar ∧ semQuebra rest = true := by
  simp only [semQuebra, List.all_cons, Bool.and_eq_true] at h
  refine ⟨fun hq => ?_, h.2⟩
  rw [hq] at h
  exact Bool.noConfusion h.1

lemma downloadLoop_spec (env : Nat → SearchOutcome × ExtractOutcome) (d : String)
    (total : Nat) :
    ∀ (itens : List Item) (i : Nat), semQuebra itens = true →
      downloadLoop env d total i itens =
        some ⟨itens.filterMap attemptInfo,
              itens.countP (fun it => !(valido it)),
              (List.range' (i + 1) itens.length).map (fun k => (k, total)),
              baixadosEsperados env d i itens⟩ := by
  intro itens
  induction itens with
  | nil => intro i _; rfl
  | cons it rest ih =>
    intro i h
    obtain ⟨hnq, hrest⟩ := semQuebra_cons h
    cases hcl : classifyItem it with
    | quebrar => exact absurd hcl hnq
    | pular =>
      simp only [downloadLoop, hcl, ih (i + 1) hrest]
      simp [attemptInfo, hcl, List.filterMap_cons, List.countP_cons, valido,
            List.range'_succ, baixadosEsperados, resultadoItem]
    | tentar nm a =>
      cases hres : (baixar_musica (env i).1 (env i).2 nm a d).1 with
      | none =>
        simp only [downloadLoop, hcl, hres, ih (i + 1) hrest]
        simp [attemptInfo, hcl, List.filterMap_cons, List.countP_cons, valido,
              List.range'_succ, baixadosEsperados, resultadoItem, hres]
      | some q =>
        simp only [downloadLoop, hcl, hres, ih (i + 1) hrest]
        simp [attemptInfo, hcl, List.filterMap_cons, List.countP_cons, valido,
              List.range'_succ, baixadosEsperados, resultadoItem, hres]

lemma pipelineLoopResult_runPipeline (env : Nat → SearchOutcome × ExtractOutcome)
    (d : String) (todas : List Item) (limite : Nat) (hne : ¬ todas = [])
    (hq : semQuebra (if 0 < limite then todas.take limite else todas) = true) :
    pipelineLoopResult (runPipeline env d todas limite) =
      some (loopEsperado env d (if 0 < limite then todas.take limite else todas)) := by
  have hie : todas.isEmpty = false := by
    cases todas with
    | nil => exact absurd rfl hne
    | cons a l => rfl
  have hmne : ¬ (if 0 < limite then todas.take limite else todas) = [] := by
    split
    · next hl =>
      cases todas with
      | nil => exact absurd rfl hne
      | cons a l =>
        cases limite with
        | zero => exact absurd hl (by omega)
        | succ m => simp [List.take]
    · exact hne
  have hlen : ¬ (if 0 < limite then todas.take limite else todas).length = 0 := by
    simpa [List.length_eq_zero] using hmne
  simp only [runPipeline, hie, Bool.false_eq_true, if_false, hlen]
  rw [downloadLoop_spec env d _ _ 0 hq]
  split
  · next heq => exact Option.noConfusion heq
  · next r heq =>
    cases Option.some.inj heq
    split <;> split <;> rfl

lemma length_filterMap_attemptInfo (itens : List Item) :
    (itens.filterMap attemptInfo).length = itens.countP valido := by
  induction itens with
  | nil => rfl
  | cons it rest ih =>
    cases hcl : classifyItem it <;>
      simp [List.filterMap_cons, List.countP_cons, attemptInfo, valido, hcl, ih]

lemma semQuebra_of_all_valido (itens : List Item) (h : itens.all valido = true) :
    semQuebra itens = true := by
  rw [List.all_eq_true] at h
  rw [semQuebra, List.all_eq_true]
  intro it hit
  have hv := h it hit
  revert hv
  rw [valido]
  cases classifyItem it <;> simp

lemma countP_valido_of_all (itens : List Item) (h : itens.all valido = true) :
    itens.countP valido = itens.length := by
  rw [List.all_eq_true] at h
  exact List.countP_eq_length.mpr h

lemma all_valido_take (todas : List Item) (N : Nat) (h : todas.all valido = true) :
    (todas.take N).all valido = true := by
  rw [List.all_eq_true] at h ⊢
  exact fun x hx => h x (List.take_subset N todas hx)

lemma baixar_musica_eq_some {s : SearchOutcome} {e : ExtractOutcome} {t a d p : String}
    (h : (baixar_musica s e t a d).1 = some p) : p = caminhoEsperado t a d := by
  cases s with
  | raised => exact Option.noConfusion h
  | noResult => exact Option.noConfusion h
  | found u =>
    cases e with
    | raised => exact Option.noConfusion h
    | ok => exact (Option.some.inj h).symm

lemma downloadLoop_baixados (env : Nat → SearchOutcome × ExtractOutcome) (d : String)
    (total : Nat) :
    ∀ (itens : List Item) (i : Nat) (r : LoopResult),
      downloadLoop env d total i itens = some r →
      ∀ p ∈ r.baixados, ∃ nm a, (nm, a) ∈ r.attempts ∧ p = caminhoEsperado nm a d := by
  intro itens
  induction itens with
  | nil =>
    intro i r h p hp
    cases Option.some.inj h
    simp at hp
  | cons it rest ih =>
    intro i r h p hp
    cases hcl : classifyItem it with
    | quebrar =>
      simp only [downloadLoop, hcl] at h
      exact Option.noConfusion h
    | pular =>
      cases hreq : downloadLoop env d total (i + 1) rest with
      | none =>
        simp only [downloadLoop, hcl, hreq] at h
        exact Option.noConfusion h
      | some r' =>
        simp only [downloadLoop, hcl, hreq] at h
        cases Option.some.inj h
        exact ih (i + 1) r' hreq p hp
    | tentar nm a =>
      cases hreq : downloadLoop env d total (i + 1) rest with
      | none =>
        simp only [downloadLoop, hcl, hreq] at h
        exact Option.noConfusion h
      | some r' =>
        cases hres : (baixar_musica (env i).1 (env i).2 nm a d).1 with
        | none =>
          simp only [downloadLoop, hcl, hreq, hres] at h
          cases Option.some.inj h
          obtain ⟨nm2, a2, hmem, hpe⟩ := ih (i + 1) r' hreq p hp
          exact ⟨nm2, a2, List.mem_cons_of_mem _ hmem, hpe⟩
        | some q =>
          simp only [downloadLoop, hcl, hreq, hres] at h
          cases Option.some.inj h
          rcases List.mem_cons.mp hp with hpq | hptail
          · exact ⟨nm, a, List.mem_cons_self _ _, hpq ▸ baixar_musica_eq_some hres⟩
          · obtain ⟨nm2, a2, hmem, hpe⟩ := ih (i + 1) r' hreq p hptail
            exact ⟨nm2, a2, List.mem_cons_of_mem _ hmem, hpe⟩

lemma takeWhile_all_prefix {α : Type} (p : α → Bool) (xs : List α) (y : α) (ys : List α)
    (hxs : ∀ x ∈ xs, p x = true) (hy : p y = false) :
    (xs ++ y :: ys).takeWhile p = xs := by
  induction xs with
  | nil => simp [List.takeWhile_cons, hy]
  | cons x xs ih =>
    have hx := hxs x (List.mem_cons_self x xs)
    simp [List.takeWhile_cons, hx,
          ih (fun z hz => hxs z (List.mem_cons_of_mem x hz))]

lemma basename_concat (d b : String) (hb : ∀ c ∈ b.data, (c != '/') = true) :
    basename ((d ++ "/") ++ b) = b := by
  rw [basename]
  have hdata : ((d ++ "/") ++ b).data = (d.data ++ ['/']) ++ b.data := by
    rw [String.data_append, String.data_append]
  rw [hdata, List.reverse_append]
  have h2 : (d.data ++ ['/']).reverse = '/' :: d.data.reverse := by simp
  rw [h2, takeWhile_all_prefix _ _ _ _ (fun c hc => hb c (List.mem_reverse.mp hc)) (by decide),
      List.reverse_reverse]

lemma limpar_nome_no_slash (s : String) : ∀ c ∈ (limpar_nome s).data, (c != '/') = true := by
  intro c hc
  have hc' : c ∈ s.data.filter (fun c => !(caracteresInvalidos.contains c)) := hc
  obtain ⟨_, hpred⟩ := List.mem_filter.mp hc'
  by_contra hne
  have hcs : c = '/' := by
    revert hne
    cases hcc : (c == '/') with
    | false => intro hne; exact absurd (by simp [bne, hcc]) hne
    | true => intro _; exact eq_of_beq hcc
  subst hcs
  exact absurd hpred (by decide)

lemma no_slash_entry (nm a : String) :
    ∀ c ∈ ((limpar_nome a ++ " - " ++ limpar_nome nm) ++ ".mp3").data, (c != '/') = true := by
  intro c hc
  simp only [String.data_append, List.mem_append] at hc
  rcases hc with ((h1 | h2) | h3) | h4
  · exact limpar_nome_no_slash a c h1
  · fin_cases h2 <;> decide
  · exact limpar_nome_no_slash nm c h3
  · fin_cases h4 <;> decide

lemma basename_caminhoEsperado (nm a d : String) :
    basename (caminhoEsperado nm a d) =
      (limpar_nome a ++ " - " ++ limpar_nome nm) ++ ".mp3" := by
  have h : caminhoEsperado nm a d =
      (d ++ "/") ++ ((limpar_nome a ++ " - " ++ limpar_nome nm) ++ ".mp3") := by
    rw [caminhoEsperado]
    exact String.append_assoc _ _ _
  rw [h, basename_concat _ _ (no_slash_entry nm a)]

lemma getLast_progress (n total : Nat) (hn : ¬ n = 0) :
    ((List.range' 1 n).map (fun k => (k, total))).getLast? = some (n, total) := by
  cases n with
  | zero => exact absurd rfl hn
  | succ m =>
    rw [List.range'_concat, List.map_append]
    simp only [List.map_cons, List.map_nil]
    rw [List.getLast?_concat]
    have h1 : 1 + 1 * m = m + 1 := by omega
    rw [h1]

end Spotipy

namespace Spotipy

/-- Claim C4: track listing fetches the first page, then while the provider
reports a next page fetches it and appends its items, preserving provider
order and stopping exactly when no further page is reported; three pages of
100, 100 and 17 items yield the ordered sequence of exactly 217 records in
provider order. -/
theorem C4_pagination :
    (∀ (α : Type) (p : List α) (rest : List (List α)),
      get_todas_as_musicas (some (p :: rest)) = (p :: rest).join) ∧
    get_todas_as_musicas
      (some [List.range 100, (List.range 100).map (fun k => 100 + k),
             (List.range 17).map (fun k => 200 + k)]) = List.range 217 := by
  constructor
  · intro α p rest
    simp [get_todas_as_musicas, fetchLoop_eq_append_join]
  · show fetchLoop _ _ = _
    rw [fetchLoop_eq_append_join]
    set_option maxRecDepth 8192 in decide

/-- Claim C9 counterexample: on the empty string the parser returns the
present empty string, not an absent result, refuting the claim that the
empty input yields absent. -/
theorem C9_counterexample : ¬ get_playlist_id "" = none ∧ get_playlist_id "" = some "" := by
  constructor
  · decide
  · decide

/-- Claim C9 (amended): on the empty string the parser returns the present
empty string, a falsy value that the caller treats like a missing
identifier; the parser never raises, returning a value for every string
input. -/
theorem C9_amended :
    get_playlist_id "" = some "" ∧ ∀ url : String, (get_playlist_id url).isSome = true := by
  exact ⟨by decide, fun url => rfl⟩

/-- Claim C1 counterexample: a session holding an expired credential whose
refresh call fails makes exactly one refresh call and no metadata request,
but the stored credential is kept in the session state, so the session does
not transition back to Unauthenticated as the claim states. -/
theorem C1_counterexample :
    (appRunWithDownload envC1 stC1 true).2.2.countP isRefreshCall = 1 ∧
    envC1.refresh tokC1.refresh_token = none ∧
    (appRunWithDownload envC1 stC1 true).2.2.countP isMetadataRequest = 0 ∧
    ¬ (appRunWithDownload envC1 stC1 true).2.1.token_info = none := by
  refine ⟨?_, rfl, ?_, ?_⟩ <;> decide

/-- Claim C1 (amended): for every session holding a credential whose expiry
check fails, the next run that requests a client makes exactly one refresh
call, and that call precedes any metadata request; if the refresh fails,
the run halts with an error before any metadata request, and the stored
credential remains in the session state unchanged (the session does not
transition back to Unauthenticated). -/
theorem C1_expired_refresh :
    (∀ (env : AuthEnv) (s : AppState) (ti : TokenInfo) (pressed : Bool),
      s.token_info = some ti → s.code_param ≠ none → env.is_expired ti = true →
      ((appRunWithDownload env s pressed).2.2.countP isRefreshCall = 1 ∧
       ((appRunWithDownload env s pressed).2.2.takeWhile
          (fun e => !(isMetadataRequest e))).countP isRefreshCall = 1) ∧
      (env.refresh ti.refresh_token = none →
        (appRunWithDownload env s pressed).1 = RunOutcome.authErrorStop ∧
        (appRunWithDownload env s pressed).2.2.countP isMetadataRequest = 0 ∧
        (appRunWithDownload env s pressed).2.1.token_info = some ti)) ∧
    ((appRunWithDownload envC1 stC1 true).1 = RunOutcome.authErrorStop ∧
     (appRunWithDownload envC1 stC1 true).2.1.token_info = some tokC1) := by
  constructor
  · intro env s ti pressed hti hcode hexp
    obtain ⟨c, hc⟩ : ∃ c, s.code_param = some c := by
      cases h : s.code_param with
      | none => exact absurd h hcode
      | some c => exact ⟨c, rfl⟩
    have hg : get_spotify_client env s = tokenPhase env s ti [] := by
      simp [get_spotify_client, hti]
    cases hr : env.refresh ti.refresh_token with
    | none =>
      have hv : appRunWithDownload env s pressed =
          (RunOutcome.authErrorStop, s,
           [AuthEvent.refreshCall ti.refresh_token,
            AuthEvent.errorShown "erro durante a autenticacao"]) := by
        simp [appRunWithDownload, appRun, hc, hg, tokenPhase, hexp, hr]
      rw [hv]
      refine ⟨⟨?_, ?_⟩, fun _ => ⟨rfl, ?_, hti⟩⟩ <;>
        simp [List.countP_cons, List.takeWhile, isRefreshCall, isMetadataRequest]
    | some ti2 =>
      have hv : appRun env s =
          (RunOutcome.ready ti2.access_token,
           { s with token_info := some ti2 },
           [AuthEvent.refreshCall ti.refresh_token]) := by
        simp [appRun, hc, hg, tokenPhase, hexp, hr]
      refine ⟨?_, fun h => Option.noConfusion h⟩
      cases pressed with
      | false =>
        simp [appRunWithDownload, hv, List.countP_cons, List.takeWhile,
              isRefreshCall, isMetadataRequest]
      | true =>
        simp [appRunWithDownload, hv, List.countP_cons, List.takeWhile,
              isRefreshCall, isMetadataRequest]
  · exact ⟨by decide, by decide⟩

/-- Claim C3: the run is routed to the login page exactly when the code
query parameter is absent, regardless of the stored session credential; in
particular a session holding a credential is still routed to login once the
code parameter is gone, against the claim that an authenticated session
always proceeds without routing to login. -/
theorem C3_routing_on_code_param :
    (∀ (env : AuthEnv) (s : AppState),
      (appRun env s).1 = RunOutcome.routedToLogin ↔ s.code_param = none) ∧
    ((appRun envC3 stC3).1 = RunOutcome.routedToLogin ∧ ¬ stC3.token_info = none) := by
  constructor
  · intro env s
    cases hc : s.code_param with
    | none => simp [appRun, hc]
    | some c =>
      simp only [appRun, hc]
      cases (get_spotify_client env s).result <;> simp
  · exact ⟨by decide, by decide⟩

/-- Claim C2 counterexample: after a run with credential credA populates the
cache for a playlist id, a run with the different credential credB and the
same playlist id is served the cached result of credA, which differs from
what a fresh fetch under credB returns; the cache therefore serves data
across two different credentials, refuting the claim. -/
theorem C2_counterexample :
    (cached_get_todas fetchC2
      (cached_get_todas fetchC2 [] ⟨"credA"⟩ "pl").2 ⟨"credB"⟩ "pl").1 = [itemA] ∧
    get_todas_as_musicas (fetchC2 ⟨"credB"⟩ "pl") = [itemB] ∧
    ¬ itemA = itemB := by
  refine ⟨?_, ?_, ?_⟩ <;> decide

/-- Claim C2 (amended): the memoized track listing is keyed by the playlist
id alone, because the client parameter carries a leading underscore and is
excluded from the st.cache_data key; a cached result is served exactly when
the playlist id matches a populated entry, in which case it is served
whatever the current credential is, and a result populated for one playlist
id is never served for a different playlist id. -/
theorem C2_cache_key :
    (∀ (fetch : SpotifyClient → String → Option (List (List Item)))
       (cache : List (String × List Item)) (sp1 sp2 : SpotifyClient) (pid pid2 : String),
      (∀ v, cache.lookup pid = some v →
        (cached_get_todas fetch cache sp1 pid).1 = v ∧
        (cached_get_todas fetch cache sp2 pid).1 = v) ∧
      (cache.lookup pid = none →
        (cached_get_todas fetch cache sp1 pid).1 = get_todas_as_musicas (fetch sp1 pid)) ∧
      (¬ pid2 = pid → ∀ v,
        (cached_get_todas fetch ((pid, v) :: cache) sp1 pid2).1 =
        (cached_get_todas fetch cache sp1 pid2).1)) ∧
    ((cached_get_todas fetchC2
        (cached_get_todas fetchC2 [] ⟨"credA"⟩ "pl").2 ⟨"credB"⟩ "pl").1 = [itemA] ∧
     (cached_get_todas fetchC2 [] ⟨"credB"⟩ "pl2").1 = [itemB]) := by
  constructor
  · intro fetch cache sp1 sp2 pid pid2
    refine ⟨fun v hv => ?_, fun hv => ?_, fun hne v => ?_⟩
    · constructor <;> simp [cached_get_todas, hv]
    · simp [cached_get_todas, hv]
    · have hl : List.lookup pid2 ((pid, v) :: cache) = List.lookup pid2 cache := by
        have : (pid2 == pid) = false := by
          simp only [beq_eq_false_iff_ne, ne_eq]
          exact hne
        simp [List.lookup, this]
      simp only [cached_get_todas, hl]
      cases List.lookup pid2 cache <;> rfl
  · exact ⟨by decide, by decide⟩

/-- Claim C5: track acquisition never raises outward; on any exception or
missing search result it returns an absent result together with a warning
or error status, and on success it returns exactly the destination
directory joined with the sanitized artist, a separator, the sanitized
title and the mp3 suffix. -/
theorem C5_acquire :
    ∀ (s : SearchOutcome) (e : ExtractOutcome) (titulo artista pasta : String),
      ((baixar_musica s e titulo artista pasta).1 = none ∧
        temFalha (baixar_musica s e titulo artista pasta).2 = true) ∨
      (baixar_musica s e titulo artista pasta).1 = some (caminhoEsperado titulo artista pasta) := by
  intro s e titulo artista pasta
  cases s with
  | raised => exact Or.inl ⟨rfl, rfl⟩
  | noResult => exact Or.inl ⟨rfl, rfl⟩
  | found u =>
    cases e with
    | raised => exact Or.inl ⟨rfl, rfl⟩
    | ok => exact Or.inr rfl


/-- Claim C6: for every fetched playlist of valid tracks and every submitted
cap N, when N is positive exactly the first N tracks in playlist order are
attempted and when N is zero all tracks are attempted; with a cap of 3 on a
ten-track playlist the reported progress fraction pairs are 1 of 3, 2 of 3
and 3 of 3. -/
theorem C6_cap :
    (∀ (env : Nat → SearchOutcome × ExtractOutcome) (d : String) (todas : List Item) (N : Nat),
      ¬ todas = [] → todas.all valido = true →
      ∃ r, pipelineLoopResult (runPipeline env d todas N) = some r ∧
        r.attempts = (if 0 < N then todas.take N else todas).filterMap attemptInfo ∧
        r.attempts.length = (if 0 < N then min N todas.length else todas.length)) ∧
    pipelineLoopResult (runPipeline envOk "t" ((List.range 10).map trilha) 3) =
      some ⟨[("m0", "art0"), ("m1", "art1"), ("m2", "art2")], 0, [(1, 3), (2, 3), (3, 3)],
            ["t/art0 - m0.mp3", "t/art1 - m1.mp3", "t/art2 - m2.mp3"]⟩ := by
  constructor
  · intro env d todas N hne hv
    have hq : semQuebra (if 0 < N then todas.take N else todas) = true := by
      split
      · exact semQuebra_of_all_valido _ (all_valido_take todas N hv)
      · exact semQuebra_of_all_valido _ hv
    refine ⟨_, pipelineLoopResult_runPipeline env d todas N hne hq, rfl, ?_⟩
    show ((if 0 < N then todas.take N else todas).filterMap attemptInfo).length = _
    rw [length_filterMap_attemptInfo]
    split
    · next hp =>
      rw [countP_valido_of_all _ (all_valido_take todas N hv), List.length_take]
    · next hp =>
      rw [countP_valido_of_all _ hv]
  · set_option maxRecDepth 8192 in decide

/-- Claim C8: a fetched track list containing null or removed entries is
processed without crashing, each such entry producing one warning and no
acquisition attempt; a list of five valid and two null entries yields
exactly five acquisition attempts and two warnings. -/
theorem C8_skip_nulls :
    (∀ (env : Nat → SearchOutcome × ExtractOutcome) (d : String) (itens : List Item)
       (i total : Nat), semQuebra itens = true →
      ∃ r, downloadLoop env d total i itens = some r ∧
        r.attempts = itens.filterMap attemptInfo ∧
        r.warnings = itens.countP (fun it => !(valido it)) ∧
        r.progressos.length = itens.length) ∧
    downloadLoop envOk "t" 7 0 [trilha 0, nulo, trilha 1, trilha 2, nulo, trilha 3, trilha 4] =
      some ⟨[("m0", "art0"), ("m1", "art1"), ("m2", "art2"), ("m3", "art3"), ("m4", "art4")], 2,
            [(1, 7), (2, 7), (3, 7), (4, 7), (5, 7), (6, 7), (7, 7)],
            ["t/art0 - m0.mp3", "t/art1 - m1.mp3", "t/art2 - m2.mp3", "t/art3 - m3.mp3",
             "t/art4 - m4.mp3"]⟩ := by
  constructor
  · intro env d itens i total hq
    refine ⟨_, downloadLoop_spec env d total itens i hq, rfl, rfl, ?_⟩
    show ((List.range' (i + 1) itens.length).map _).length = _
    rw [List.length_map, List.length_range']
  · set_option maxRecDepth 8192 in decide

lemma runPipeline_arquivo_inv {env : Nat → SearchOutcome × ExtractOutcome} {d : String}
    {todas : List Item} {limite : Nat} {r : LoopResult} {entries : List String}
    (h : runPipeline env d todas limite = PipelineResult.arquivo r entries) :
    downloadLoop env d (if 0 < limite then todas.take limite else todas).length 0
        (if 0 < limite then todas.take limite else todas) = some r ∧
    r.baixados.isEmpty = false ∧ entries = r.baixados.map basename := by
  cases hie : todas.isEmpty with
  | true =>
    simp only [runPipeline, hie, if_true] at h
    exact PipelineResult.noConfusion h
  | false =>
    by_cases hlen : (if 0 < limite then todas.take limite else todas).length = 0
    · simp only [runPipeline, hie, Bool.false_eq_true, if_false, hlen, if_true] at h
      exact PipelineResult.noConfusion h
    · simp only [runPipeline, hie, Bool.false_eq_true, if_false, hlen] at h
      cases hdl : downloadLoop env d (if 0 < limite then todas.take limite else todas).length 0
          (if 0 < limite then todas.take limite else todas) with
      | none => rw [hdl] at h; exact PipelineResult.noConfusion h
      | some r' =>
        rw [hdl] at h
        cases hbe : r'.baixados.isEmpty with
        | true => simp only [hbe, if_true] at h; exact PipelineResult.noConfusion h
        | false =>
          simp only [hbe, Bool.false_eq_true, if_false] at h
          injection h with h1 h2
          subst h1
          subst h2
          exact ⟨rfl, hbe, rfl⟩

lemma runPipeline_semArquivos_inv {env : Nat → SearchOutcome × ExtractOutcome} {d : String}
    {todas : List Item} {limite : Nat} {r : LoopResult}
    (h : runPipeline env d todas limite = PipelineResult.semArquivos r) :
    r.baixados = [] := by
  cases hie : todas.isEmpty with
  | true =>
    simp only [runPipeline, hie, if_true] at h
    exact PipelineResult.noConfusion h
  | false =>
    by_cases hlen : (if 0 < limite then todas.take limite else todas).length = 0
    · simp only [runPipeline, hie, Bool.false_eq_true, if_false, hlen, if_true] at h
      exact PipelineResult.noConfusion h
    · simp only [runPipeline, hie, Bool.false_eq_true, if_false, hlen] at h
      cases hdl : downloadLoop env d (if 0 < limite then todas.take limite else todas).length 0
          (if 0 < limite then todas.take limite else todas) with
      | none => rw [hdl] at h; exact PipelineResult.noConfusion h
      | some r' =>
        rw [hdl] at h
        cases hbe : r'.baixados.isEmpty with
        | true =>
          simp only [hbe, if_true] at h
          injection h with h1
          subst h1
          exact List.isEmpty_iff.mp hbe
        | false =>
          simp only [hbe, Bool.false_eq_true, if_false] at h
          exact PipelineResult.noConfusion h

/-- Claim C7: an archive is produced exactly when at least one acquisition
succeeded; when every attempt fails the terminal nothing-to-archive error is
reported and no archive is made, and when k attempts succeed the archive
holds exactly k flat entries, each named by the sanitized artist, a
separator, the sanitized title and the mp3 suffix; closed instances cover
the all-fail run and a run in which 2 of 3 acquisitions succeed. -/
theorem C7_archive :
    (∀ (env : Nat → SearchOutcome × ExtractOutcome) (d : String) (todas : List Item)
       (limite : Nat) (r : LoopResult) (entries : List String),
      runPipeline env d todas limite = PipelineResult.arquivo r entries →
        ¬ r.baixados = [] ∧ entries = r.baixados.map basename ∧
        entries.length = r.baixados.length ∧
        ∀ e ∈ entries, ∃ nm a, (nm, a) ∈ r.attempts ∧
          e = (limpar_nome a ++ " - " ++ limpar_nome nm) ++ ".mp3") ∧
    (∀ (env : Nat → SearchOutcome × ExtractOutcome) (d : String) (todas : List Item)
       (limite : Nat) (r : LoopResult),
      runPipeline env d todas limite = PipelineResult.semArquivos r → r.baixados = []) ∧
    runPipeline envFalha "t" ((List.range 3).map trilha) 0 =
      PipelineResult.semArquivos
        ⟨[("m0", "art0"), ("m1", "art1"), ("m2", "art2")], 0, [(1, 3), (2, 3), (3, 3)], []⟩ ∧
    runPipeline envDoisDeTres "t" ((List.range 3).map trilha) 0 =
      PipelineResult.arquivo
        ⟨[("m0", "art0"), ("m1", "art1"), ("m2", "art2")], 0, [(1, 3), (2, 3), (3, 3)],
         ["t/art0 - m0.mp3", "t/art1 - m1.mp3"]⟩
        ["art0 - m0.mp3", "art1 - m1.mp3"] := by
  refine ⟨?_, ?_, ?_, ?_⟩
  · intro env d todas limite r entries h
    obtain ⟨hdl, hbe, hent⟩ := runPipeline_arquivo_inv h
    have hbne : ¬ r.baixados = [] := by
      intro hb
      rw [hb] at hbe
      exact Bool.noConfusion hbe
    refine ⟨hbne, hent, by rw [hent, List.length_map], ?_⟩
    intro e he
    rw [hent] at he
    obtain ⟨p, hpmem, hpe⟩ := List.mem_map.mp he
    obtain ⟨nm, a, hmem, hpc⟩ := downloadLoop_baixados env d _ _ 0 r hdl p hpmem
    refine ⟨nm, a, hmem, ?_⟩
    rw [← hpe, hpc, basename_caminhoEsperado]
  · intro env d todas limite r h
    exact runPipeline_semArquivos_inv h
  · set_option maxRecDepth 8192 in decide
  · set_option maxRecDepth 8192 in decide

/-- Claim C10: the cap is applied to the fetched list before null entries
are filtered out, so with a positive cap N the number of acquisition
attempts equals the number of valid entries among the first N items, while
the progress bar advances once per capped item, valid or not, and its last
update reaches the full fraction; a cap of 3 over a list whose first three
items include one null entry yields 2 attempts and the progress pairs 1 of
3, 2 of 3 and 3 of 3. -/
theorem C10_cap_before_skip :
    (∀ (env : Nat → SearchOutcome × ExtractOutcome) (d : String) (todas : List Item) (N : Nat),
      0 < N → ¬ todas = [] → semQuebra (todas.take N) = true →
      ∃ r, pipelineLoopResult (runPipeline env d todas N) = some r ∧
        r.attempts = (todas.take N).filterMap attemptInfo ∧
        r.attempts.length = (todas.take N).countP valido ∧
        r.progressos = (List.range' 1 (todas.take N).length).map
          (fun k => (k, (todas.take N).length)) ∧
        r.progressos.getLast? = some ((todas.take N).length, (todas.take N).length)) ∧
    runPipeline envOk "t" [trilha 0, nulo, trilha 1, trilha 2, trilha 3] 3 =
      PipelineResult.arquivo
        ⟨[("m0", "art0"), ("m1", "art1")], 1, [(1, 3), (2, 3), (3, 3)],
         ["t/art0 - m0.mp3", "t/art1 - m1.mp3"]⟩
        ["art0 - m0.mp3", "art1 - m1.mp3"] := by
  constructor
  · intro env d todas N hN hne hq
    have hq' : semQuebra (if 0 < N then todas.take N else todas) = true := by
      rw [if_pos hN]; exact hq
    have hlen : ¬ (todas.take N).length = 0 := by
      rw [List.length_take]
      have h1 : 0 < todas.length := List.length_pos.mpr hne
      omega
    refine ⟨_, pipelineLoopResult_runPipeline env d todas N hne hq', ?_, ?_, ?_, ?_⟩
    · show (if 0 < N then todas.take N else todas).filterMap attemptInfo = _
      rw [if_pos hN]
    · show ((if 0 < N then todas.take N else todas).filterMap attemptInfo).length = _
      rw [if_pos hN, length_filterMap_attemptInfo]
    · show (List.range' 1 (if 0 < N then todas.take N else todas).length).map _ = _
      rw [if_pos hN]
    · show ((List.range' 1 (if 0 < N then todas.take N else todas).length).map _).getLast? = _
      rw [if_pos hN]
      exact getLast_progress _ _ hlen
  · set_option maxRecDepth 8192 in decide

end Spotipy
